import Mathlib

/-!
# Verification of the dao-ai-builder backend against its specification

This file shallowly embeds the credential-resolution, proxying, metadata-sorting
and deployment-job-tracking logic of `src/app.py` (and the minimal alternative
backend `src/backend/main.py`) and proves, or refutes, the testable properties
stated in the natural-language specification.

Conventions of the embedding:
* Python strings are Lean `String`s (logically lists of `Char`); Python string
  truthiness (`if s:`) becomes a test against `""`.
* `request.headers.get(name)` / `os.environ.get(name)` / session lookups become
  `Option String` fields of an explicit request/environment record.  Flask header
  lookup is case-insensitive, so the source's two lookups of
  `X-Forwarded-Access-Token` (mixed-case and lower-case) read the same value and
  are modelled by a single field.
* The process environment is an explicit `String → Option String` map that is
  threaded through the call paths which mutate it.
* The in-memory deployment job map (a Python dict guarded by a lock) becomes an
  association list `List (String × JobRecord)`; each HTTP handler becomes a pure
  function from the pre-state to (response, post-state).
-/

namespace DaoAi

/-! ## Python string primitives used by the source -/

/-- Python `str.lower()` (the source only compares ASCII identifiers/emails). -/
def pyLower (s : String) : String :=
  (s.toList.map Char.toLower).asString

/-- Is `n` a contiguous sublist of the second argument? -/
def listIsInfix (n : List Char) : List Char → Bool
  | [] => n.isPrefixOf []
  | c :: rest => n.isPrefixOf (c :: rest) || listIsInfix n rest

/-- Python `needle in hay` substring test. -/
def strContains (hay needle : String) : Bool :=
  listIsInfix needle.toList hay.toList

/-- Python `s.startswith(p)`. -/
def pyStartsWith (s p : String) : Bool :=
  p.toList.isPrefixOf s.toList

/-- Python `s[n:]`. -/
def pyDrop (s : String) (n : Nat) : String :=
  (s.toList.drop n).asString

/-- Python `str.strip()` on the character list: drop whitespace from both ends. -/
def pyStrip (l : List Char) : List Char :=
  ((l.dropWhile Char.isWhitespace).reverse.dropWhile Char.isWhitespace).reverse

/-- Python `str.rstrip('/')` on the character list: drop all trailing slashes. -/
def pyRstripSlashes (l : List Char) : List Char :=
  (l.reverse.dropWhile (fun c => c == '/')).reverse

/-! ## `normalize_host` (src/app.py lines 126-133)

```python
def normalize_host(host: str) -> str:
    if not host:
        return host
    host = host.strip().rstrip('/')
    if not host.startswith('http://') and not host.startswith('https://'):
        host = f'https://{host}'
    return host
``` -/

/-- Does the character list start with an explicit http(s) scheme? -/
def startsWithScheme (l : List Char) : Bool :=
  "http://".toList.isPrefixOf l || "https://".toList.isPrefixOf l

/-- Shallow embedding of `normalize_host`. -/
def normalize_host (s : String) : String :=
  if s = "" then s
  else
    let c := pyRstripSlashes (pyStrip s.toList)
    if startsWithScheme c then c.asString
    else ("https://".toList ++ c).asString

/-! ## Token resolution (src/app.py `get_databricks_token_with_source`, lines 183-236)

The request-scoped and process-scoped inputs the resolver reads. -/

structure HttpRequest where
  /-- `session['access_token']` when `'access_token' in session`, else `none`. -/
  sessionAccessToken : Option String
  /-- `request.headers.get('Authorization')`. -/
  authorizationHeader : Option String
  /-- `request.headers.get('X-Forwarded-Access-Token')` (case-insensitive in Flask,
  so this single field also covers the source's lower-case fallback lookup). -/
  xForwardedAccessToken : Option String
  /-- The value of `get_databricks_token_from_sdk()` (the memoized SDK config's
  token, `none` when the SDK resolves no token). -/
  sdkToken : Option String
  /-- `os.environ.get('DATABRICKS_TOKEN')`. -/
  envDatabricksToken : Option String
deriving DecidableEq

/-- Shallow embedding of `get_databricks_token_with_source`. -/
def get_databricks_token_with_source (r : HttpRequest) :
    Option String × Option String :=
  match r.sessionAccessToken with
  | some t => (some t, some "oauth")
  | none =>
    let auth := r.authorizationHeader.getD ""
    if pyStartsWith auth "Bearer " then (some (pyDrop auth 7), some "manual")
    else
      let fwd := r.xForwardedAccessToken.getD ""
      if fwd ≠ "" then (some fwd, some "obo")
      else
        let sdk := r.sdkToken.getD ""
        if sdk ≠ "" then (some sdk, some "sdk")
        else
          let env := r.envDatabricksToken.getD ""
          if env ≠ "" then (some env, some "env")
          else (none, none)

/-- Presence of a session token: `'access_token' in session`. -/
abbrev sessionPresent (r : HttpRequest) : Prop := r.sessionAccessToken.isSome

/-- Presence of an explicit `Authorization: Bearer` header. -/
abbrev bearerPresent (r : HttpRequest) : Prop :=
  pyStartsWith (r.authorizationHeader.getD "") "Bearer "

/-- Presence of a (truthy) forwarded on-behalf-of token header. -/
abbrev forwardedPresent (r : HttpRequest) : Prop :=
  r.xForwardedAccessToken.getD "" ≠ ""

/-- Presence of a (truthy) SDK-config token. -/
abbrev sdkPresent (r : HttpRequest) : Prop := r.sdkToken.getD "" ≠ ""

/-- Presence of a (truthy) `DATABRICKS_TOKEN` environment variable. -/
abbrev envPresent (r : HttpRequest) : Prop := r.envDatabricksToken.getD "" ≠ ""

/-! ## Proxy token selection

`proxy_databricks` in src/app.py (lines 698-737) first checks the explicit
`Authorization: Bearer` header and only otherwise falls back to
`get_databricks_token_with_source`:

```python
auth_header = request.headers.get('Authorization', '')
if auth_header.startswith('Bearer '):
    token = auth_header[7:]
    token_source = 'manual'
else:
    token, token_source = get_databricks_token_with_source()
``` -/

/-- The (token, token_source) pair the main app's proxy forwards upstream. -/
def proxy_token_selection (r : HttpRequest) : Option String × Option String :=
  let auth := r.authorizationHeader.getD ""
  if pyStartsWith auth "Bearer " then (some (pyDrop auth 7), some "manual")
  else get_databricks_token_with_source r

/-- Token selection of `proxy_databricks` in src/backend/main.py (lines 86-108):

```python
token = request.headers.get('X-Forwarded-Access-Token')
if not token:
    token = os.environ.get('DATABRICKS_TOKEN')
if not token:
    return jsonify({'error': 'No authentication token available'}), 401
```

The `Authorization` header is never consulted. -/
def backend_proxy_token (r : HttpRequest) : Option String :=
  let t := r.xForwardedAccessToken.getD ""
  let t := if t = "" then r.envDatabricksToken.getD "" else t
  if t = "" then none else some t

/-! ## Scope-error enrichment (src/app.py lines 772-845) -/

/-- `OAUTH_SCOPES` (src/app.py lines 95-104): the statically configured scope
list the application requests. -/
def OAUTH_SCOPES : List String :=
  ["sql", "dashboards.genie", "files.files", "serving.serving-endpoints",
   "vectorsearch.vector-search-indexes", "vectorsearch.vector-search-endpoints",
   "offline_access"]

/-- The static `scope_mappings` table of `_get_required_scopes_for_path`
(src/app.py lines 814-838), in source order. -/
def scope_mappings : List (List String × List String) :=
  [ (["/sql/", "/warehouses"], ["sql"]),
    (["/serving-endpoints", "/endpoints"], ["serving.serving-endpoints"]),
    (["/vector-search", "/indexes"],
      ["vectorsearch.vector-search-indexes", "vectorsearch.vector-search-endpoints"]),
    (["/genie", "/dashboards"], ["dashboards.genie"]),
    (["/files", "/volumes", "/dbfs"], ["files.files"]),
    (["/catalog", "/schemas", "/tables", "/functions"], ["sql"]),
    (["/scim", "/users", "/me"], ["iam.current-user:read"]),
    (["/clusters"], ["clusters.clusters"]),
    (["/jobs"], ["jobs.jobs"]),
    (["/mlflow", "/experiments", "/models", "/registered-models"],
      ["mlflow.experiments", "mlflow.registered-models"]),
    (["/workspace"], ["workspace.workspace"]) ]

/-- Shallow embedding of `_get_required_scopes_for_path` (src/app.py 808-845):
lower-case the path, return the scope list of the first table entry one of whose
patterns occurs in the path, else the default fallback list. -/
def get_required_scopes_for_path (path : String) : List String :=
  let path_lower := pyLower path
  match scope_mappings.find? (fun m => m.1.any (fun pat => strContains path_lower pat)) with
  | some m => m.2
  | none => ["sql", "serving.serving-endpoints", "files.files"]

/-- The upstream response fields the enrichment step of `proxy_databricks`
(src/app.py lines 772-793) inspects.  `message`/`error` are the fields of the
JSON-parsed body (`resp.json()`); a body that fails to parse never reaches the
enrichment branch. -/
structure UpstreamResponse where
  status : Nat
  message : Option String
  error : Option String
  error_code : Option String
deriving DecidableEq

/-- The enriched error body built on a scope failure. -/
structure EnrichedError where
  error : String
  error_code : Option String
  required_scopes : List String
  configured_scopes : List String
deriving DecidableEq

/-- Shallow embedding of the enrichment branch of `proxy_databricks`
(src/app.py lines 772-793):

```python
if resp.status_code in (401, 403):
    error_message = error_data.get('message', '') or error_data.get('error', '')
    if 'scope' in error_message.lower():
        required_scopes = _get_required_scopes_for_path(path)
        enhanced_error = {'error': error_message, 'error_code': ...,
                          'required_scopes': required_scopes,
                          'configured_scopes': OAUTH_SCOPES, ...}
```

Returns `some` of the enriched body when the branch fires, `none` when the
response is relayed unchanged.  The message inspected for `'scope'` is
`error_data.get('message', '') or error_data.get('error', '')`: -/
def effectiveErrorMessage (resp : UpstreamResponse) : String :=
  let m := resp.message.getD ""
  if m = "" then resp.error.getD "" else m

/-- See `effectiveErrorMessage`; this is the enrichment branch itself. -/
def scope_error_enrichment (path : String) (resp : UpstreamResponse) :
    Option EnrichedError :=
  if resp.status = 401 ∨ resp.status = 403 then
    let error_message := effectiveErrorMessage resp
    if strContains (pyLower error_message) "scope" then
      some ⟨error_message, resp.error_code,
            get_required_scopes_for_path path, OAUTH_SCOPES⟩
    else none
  else none

/-! ## `sort_by_owner` (src/app.py lines 1034-1052)

```python
def sort_by_owner(items, current_user):
    if not current_user:
        return sorted(items, key=lambda x: x.get('name', '').lower())
    current_user_lower = current_user.lower()
    def sort_key(item):
        owner = (item.get('owner') or '').lower()
        name = (item.get('name') or '').lower()
        is_owned = 0 if owner == current_user_lower else 1
        return (is_owned, name)
    return sorted(items, key=sort_key)
```

Python's `sorted` is a stable sort by the key tuple; a stable sort with respect
to a total preorder is extensionally unique, so we embed it as Mathlib's
(stable) `List.insertionSort` on the lifted key order. -/

/-- An item returned by a metadata listing handler (only the fields
`sort_by_owner` reads). -/
structure OwnedItem where
  name : Option String
  owner : Option String
deriving DecidableEq

/-- Lexicographic `≤` on code-point lists: Python's string comparison applied
to the lower-cased keys. -/
def charListLe : List Char → List Char → Bool
  | [], _ => true
  | _ :: _, [] => false
  | a :: as, b :: bs =>
      if a < b then true else if b < a then false else charListLe as bs

/-- The lower-cased name key, `(item.get('name') or '').lower()`. -/
def nameKey (x : OwnedItem) : List Char := (pyLower (x.name.getD "")).toList

/-- The ownership rank: `0 if owner == current_user_lower else 1`, with
`current_user_lower` already applied to `u`. -/
def ownedRank (u : String) (x : OwnedItem) : Nat :=
  if pyLower (x.owner.getD "") = pyLower u then 0 else 1

/-- The order Python's `sorted` uses under the key tuple `(is_owned, name)`. -/
def itemLe (u : String) (x y : OwnedItem) : Prop :=
  ownedRank u x < ownedRank u y ∨
    (ownedRank u x = ownedRank u y ∧ charListLe (nameKey x) (nameKey y) = true)

/-- The order of the no-current-user branch: alphabetical by lower-cased name. -/
def nameLe (x y : OwnedItem) : Prop :=
  charListLe (nameKey x) (nameKey y) = true

instance (u : String) : DecidableRel (itemLe u) := fun x y => by
  unfold itemLe; infer_instance

instance : DecidableRel nameLe := fun x y => by
  unfold nameLe; infer_instance

/-- Shallow embedding of `sort_by_owner`. -/
def sort_by_owner (items : List OwnedItem) (current_user : Option String) :
    List OwnedItem :=
  if current_user.getD "" = "" then List.insertionSort nameLe items
  else List.insertionSort (itemLe (current_user.getD "")) items

/-- The effective comparison `sort_by_owner` sorts by (branch on the truthiness
of `current_user` exactly as the source does). -/
def sortRel (current_user : Option String) : OwnedItem → OwnedItem → Prop :=
  if current_user.getD "" = "" then nameLe else itemLe (current_user.getD "")

instance (u : Option String) : DecidableRel (sortRel u) := fun x y => by
  unfold sortRel
  by_cases h : u.getD "" = ""
  · rw [if_pos h]; infer_instance
  · rw [if_neg h]; infer_instance

/-! ## Deployment job tracker (src/app.py lines 3384-3803)

The job map `_deployment_status` is a dict guarded by `_deployment_status_lock`;
handlers and the worker thread mutate job records in place.  We model a record
as a structure (fields the source never wrote yet are `none`/`false`, matching
Python's falsy `status.get(...)` on an absent key) and the map as an
association list. -/

/-- One entry of a job's `steps` list. -/
structure StepRecord where
  name : String
  status : String
  error : Option String
deriving DecidableEq

/-- The `result` dict written on successful completion. -/
structure DeployResult where
  endpoint_name : String
  model_name : String
  message : String
deriving DecidableEq

/-- A deployment job record (`_deployment_status[deployment_id]`). -/
structure JobRecord where
  id : String
  status : String
  jobType : String
  started_at : String
  completed_at : Option String
  steps : List StepRecord
  current_step : Nat
  /-- The `cancelled` key; absent initially, so `status.get('cancelled')` is
  falsy, modelled by `false`. -/
  cancelled : Bool
  error : Option String
  error_trace : Option String
  result : Option DeployResult
deriving DecidableEq

/-- The initial record `deploy_quick` installs (src/app.py lines 3484-3499). -/
def initialJob (id now : String) : JobRecord :=
  { id := id, status := "starting", jobType := "quick", started_at := now,
    completed_at := none,
    steps := [⟨"validate", "pending", none⟩, ⟨"create_agent", "pending", none⟩,
              ⟨"deploy_agent", "pending", none⟩],
    current_step := 0, cancelled := false, error := none, error_trace := none,
    result := none }

/-- The terminal statuses of the job state machine. -/
def terminalStatuses : List String := ["completed", "failed", "cancelled"]

/-- The in-progress statuses the cancel endpoint accepts. -/
def cancellableStatuses : List String := ["starting", "creating_agent", "deploying"]

/-- `status['steps'][i]['status'] = st` (in-place list/dict mutation); a no-op
when `i` is out of range, as in the guarded source sites. -/
def setStepStatus (i : Nat) (st : String) (j : JobRecord) : JobRecord :=
  match j.steps.get? i with
  | some s => { j with steps := j.steps.set i { s with status := st } }
  | none => j

/-- `steps[i] = {'status': st, 'error': msg}` — status plus error message. -/
def setStepFailed (i : Nat) (msg : String) (j : JobRecord) : JobRecord :=
  match j.steps.get? i with
  | some s =>
      { j with steps := j.steps.set i { s with status := "failed", error := some msg } }
  | none => j

/-- The job map. -/
abbrev JobMap := List (String × JobRecord)

/-- `_deployment_status.get(id)`. -/
def jobLookup (jobs : JobMap) (id : String) : Option JobRecord :=
  (jobs.find? (fun p => p.1 = id)).map (·.2)

/-- In-place mutation of the record stored under `id` (Python mutates the dict
value object, so every alias sees the update). -/
def jobUpdate (jobs : JobMap) (id : String) (j : JobRecord) : JobMap :=
  jobs.map (fun p => if p.1 = id then (p.1, j) else p)

/-- Response of `GET /api/deploy/status/{id}` (src/app.py lines 3714-3733):
HTTP code, the `error` field, and the deep-copied snapshot when found. -/
structure StatusResponse where
  code : Nat
  error : Option String
  snapshot : Option JobRecord
deriving DecidableEq

/-- Shallow embedding of `get_deployment_status`: look up the id; 404 with
`'Deployment not found'` when absent, otherwise a snapshot copy under lock.
The handler performs no write, so the post-state map equals the pre-state. -/
def get_deployment_status (jobs : JobMap) (id : String) :
    StatusResponse × JobMap :=
  match jobLookup jobs id with
  | none => (⟨404, some "Deployment not found", none⟩, jobs)
  | some j => (⟨200, none, some j⟩, jobs)

/-- Response of `POST /api/deploy/cancel/{id}` (src/app.py lines 3751-3803). -/
structure CancelResponse where
  code : Nat
  error : Option String
  message : Option String
  statusSnapshot : Option JobRecord
deriving DecidableEq

/-- The record mutation the cancel endpoint performs under the lock:

```python
status['cancelled'] = True
status['status'] = 'cancelled'
status['completed_at'] = datetime.now().isoformat()
if 'steps' in status and 'current_step' in status:
    current = status['current_step']
    if current < len(status['steps']):
        status['steps'][current]['status'] = 'failed'
        status['steps'][current]['error'] = 'Cancelled by user'
``` -/
def cancelRecord (now : String) (j : JobRecord) : JobRecord :=
  setStepFailed j.current_step "Cancelled by user"
    { j with cancelled := true, status := "cancelled", completed_at := some now }

/-- Shallow embedding of `cancel_deployment`: 404 when the id is unknown, 400
(`'Deployment cannot be cancelled'`) when the status is not in-progress, else
the locked mutation above plus a 200 response carrying the snapshot. -/
def cancel_deployment (now : String) (jobs : JobMap) (id : String) :
    CancelResponse × JobMap :=
  match jobLookup jobs id with
  | none => (⟨404, some "Deployment not found", none, none⟩, jobs)
  | some j =>
    if j.status ∈ cancellableStatuses then
      let j' := cancelRecord now j
      (⟨200, none, some "Deployment cancelled", some j'⟩, jobUpdate jobs id j')
    else
      (⟨400, some "Deployment cannot be cancelled",
        some ("Deployment is " ++ j.status), none⟩, jobs)

/-! ### The worker thread `run_deployment` (src/app.py lines 3500-3691)

The worker's writes to the shared record, split at the source's own granularity:
the unguarded writes around step 1, the three lock-guarded blocks that check the
`cancelled` flag before writing, and the `except`-handler writes.  Each is a
function on the record; a guarded block that observes `cancelled` returns the
record unchanged (the thread returns without writing). -/

/-- `status['steps'][0]['status'] = 'running'; status['current_step'] = 0`
(unguarded, before any cancellation check). -/
def workerBeginValidate (j : JobRecord) : JobRecord :=
  setStepStatus 0 "running" { j with current_step := 0 }

/-- `status['steps'][0]['status'] = 'completed'` (unguarded: the source writes
this after loading the config without re-checking `cancelled`). -/
def workerValidateDone (j : JobRecord) : JobRecord :=
  setStepStatus 0 "completed" j

/-- The first lock-guarded block: if `status.get('cancelled')` return, else
mark step 1 running, `current_step = 1`, `status = 'creating_agent'`. -/
def workerBeginCreate (j : JobRecord) : JobRecord :=
  if j.cancelled then j
  else setStepStatus 1 "running" { j with current_step := 1, status := "creating_agent" }

/-- The second lock-guarded block: if cancelled return, else mark step 1
completed, step 2 running, `current_step = 2`, `status = 'deploying'`. -/
def workerBeginDeploy (j : JobRecord) : JobRecord :=
  if j.cancelled then j
  else
    setStepStatus 2 "running"
      (setStepStatus 1 "completed" { j with current_step := 2, status := "deploying" })

/-- The final lock-guarded block: if cancelled return, else mark step 2
completed, `status = 'completed'`, stamp `completed_at` and `result`. -/
def workerCommit (now : String) (res : DeployResult) (j : JobRecord) : JobRecord :=
  if j.cancelled then j
  else
    setStepStatus 2 "completed"
      { j with status := "completed", completed_at := some now, result := some res }

/-- The `except Exception` handler (src/app.py lines 3671-3691): unconditionally
sets `status = 'failed'`, records the error, trace and `completed_at`, and marks
the currently-indexed step failed.  It never checks `cancelled` or the current
status. -/
def workerFail (now msg trace : String) (j : JobRecord) : JobRecord :=
  setStepFailed j.current_step msg
    { j with status := "failed", error := some msg, error_trace := some trace,
             completed_at := some now }

/-! ### `POST /api/deploy/quick` (src/app.py lines 3384-3706) -/

/-- The request body of `deploy_quick`: `config` (an abstract YAML document,
only its presence matters to the control flow modelled here) and the
`credentials` dict's fields. -/
structure DeployQuickRequest where
  config : Option String
  credType : Option String
  credPat : Option String
  credClientId : Option String
  credClientSecret : Option String
deriving DecidableEq

/-- The ambient state `deploy_quick` reads: the resolved host, the application
service principal from the environment, and the inbound request for OBO token
resolution. -/
structure DeployAmbient where
  host : Option String
  envClientId : Option String
  envClientSecret : Option String
  req : HttpRequest
deriving DecidableEq

/-- The observable outcome of `deploy_quick`: HTTP code, `error` body field,
returned deployment id, the post-state job map, and whether a worker thread was
spawned. -/
structure DeployQuickResult where
  code : Nat
  error : Option String
  deployment_id : Option String
  jobs : JobMap
  threadSpawned : Bool
deriving DecidableEq

/-- Shallow embedding of `deploy_quick` up to spawning the worker (the worker
body itself is modelled by the `worker*` record transformers above).  `newId`
stands for `str(uuid.uuid4())[:8]` and `now` for `datetime.now().isoformat()`.
The source checks, in order: config presence, the credential-type dispatch
(each branch may 400), the combined authentication check (401), the host check
(400); only then does it install the `starting` record and start the thread. -/
def deploy_quick (newId now : String) (amb : DeployAmbient)
    (r : DeployQuickRequest) (jobs : JobMap) : DeployQuickResult :=
  match r.config with
  | none => ⟨400, some "config is required", none, jobs, false⟩
  | some _ =>
    let cred_type := r.credType.getD "obo"
    -- the dispatch computes (token, client_id, client_secret) or earlies out
    let dispatched : (Option String × Option String × Option String) ⊕ DeployQuickResult :=
      if cred_type = "manual_pat" then
        if r.credPat.getD "" = "" then
          Sum.inr ⟨400, some "PAT is required for manual_pat credential type", none, jobs, false⟩
        else Sum.inl (some (r.credPat.getD ""), none, none)
      else if cred_type = "manual_sp" then
        if r.credClientId.getD "" = "" ∨ r.credClientSecret.getD "" = "" then
          Sum.inr ⟨400, some "client_id and client_secret are required for manual_sp credential type",
                   none, jobs, false⟩
        else Sum.inl (none, some (r.credClientId.getD ""), some (r.credClientSecret.getD ""))
      else if cred_type = "app" then
        if amb.envClientId.getD "" = "" ∨ amb.envClientSecret.getD "" = "" then
          Sum.inr ⟨400, some "Application service principal not configured", none, jobs, false⟩
        else Sum.inl (none, some (amb.envClientId.getD ""), some (amb.envClientSecret.getD ""))
      else
        match (get_databricks_token_with_source amb.req).1 with
        | some t => Sum.inl (some t, none, none)
        | none =>
          if amb.envClientId.getD "" = "" ∨ amb.envClientSecret.getD "" = "" then
            Sum.inr ⟨400, some "No credentials available", none, jobs, false⟩
          else Sum.inl (none, some (amb.envClientId.getD ""), some (amb.envClientSecret.getD ""))
    match dispatched with
    | Sum.inr early => early
    | Sum.inl (token, client_id, client_secret) =>
      let use_sp := client_id.isSome ∧ client_secret.isSome
      if token.isNone ∧ ¬ use_sp then
        ⟨401, some "No authentication available", none, jobs, false⟩
      else
        match amb.host with
        | none => ⟨400, some "No Databricks workspace URL configured", none, jobs, false⟩
        | some _ =>
          ⟨200, none, some newId, jobs ++ [(newId, initialJob newId now)], true⟩

/-! ## Process-environment save/mutate/restore (src/app.py `list_prompts`
lines 1364-1588 and `run_deployment` lines 3516-3671)

The process environment is an explicit map; the handlers save the managed
variables, clear/overwrite them, and restore them in a `finally` block. -/

/-- The process environment. -/
def Env := String → Option String

/-- `os.environ[k] = v`. -/
def envSet (e : Env) (k v : String) : Env :=
  fun x => if x = k then some v else e x

/-- `del os.environ[k]` (no-op when absent, as guarded in the source). -/
def envDel (e : Env) (k : String) : Env :=
  fun x => if x = k then none else e x

/-- `orig_env = {var: os.environ.get(var) for var in vars}` in source order. -/
def saveEnv (e : Env) (vars : List String) : List (String × Option String) :=
  vars.map (fun v => (v, e v))

/-- The restore loop of the `finally` blocks:

```python
for var, value in orig_env.items():
    if value is not None:
        os.environ[var] = value
    elif var in os.environ:
        del os.environ[var]
``` -/
def restoreEnv (orig : List (String × Option String)) (e : Env) : Env :=
  orig.foldl
    (fun acc p =>
      match p.2 with
      | some v => envSet acc p.1 v
      | none => envDel acc p.1)
    e

/-- The variables `list_prompts` (and the other prompt-registry handlers)
manage: `env_vars_to_manage` at src/app.py line 1365. -/
def promptManagedVars : List String :=
  ["DATABRICKS_HOST", "DATABRICKS_TOKEN", "DATABRICKS_CLIENT_ID", "DATABRICKS_CLIENT_SECRET"]

/-- The variables `run_deployment` saves up front (src/app.py lines 3516-3522). -/
def deployManagedVars : List String :=
  ["DATABRICKS_HOST", "DATABRICKS_TOKEN", "DATABRICKS_CLIENT_ID",
   "DATABRICKS_CLIENT_SECRET", "MLFLOW_TRACKING_TOKEN"]

/-- Which credential the prompt handler writes into the environment after
clearing the managed variables. -/
inductive PromptAuth where
  | servicePrincipal (clientId clientSecret : String)
  | userToken (token : String)
  | noToken
deriving DecidableEq

/-- The mutations the `try` block of `list_prompts` performs: clear all managed
variables, set `DATABRICKS_HOST`, then either the service-principal pair or the
user token (or nothing when no token is available and the handler returns 401).
-/
def promptsEnvMutations (host : String) (auth : PromptAuth) (e : Env) : Env :=
  let e := promptManagedVars.foldl envDel e
  let e := envSet e "DATABRICKS_HOST" (normalize_host host)
  match auth with
  | .servicePrincipal cid secret =>
      envSet (envSet e "DATABRICKS_CLIENT_ID" cid) "DATABRICKS_CLIENT_SECRET" secret
  | .userToken tok => envSet e "DATABRICKS_TOKEN" tok
  | .noToken => e

/-- The whole environment effect of a `list_prompts` call that runs its `try`
block to some point producing environment `mid` and then restores: the
`finally` block always runs `restoreEnv` on the saved values. -/
def list_prompts_env (host : String) (auth : PromptAuth) (e : Env) : Env :=
  restoreEnv (saveEnv e promptManagedVars) (promptsEnvMutations host auth e)

/-- Credential written by the deployment worker (PAT token or SP pair), per
`run_deployment` lines 3540-3553. -/
inductive DeployAuth where
  | patToken (token : String)
  | servicePrincipal (clientId clientSecret : String)
  | neither
deriving DecidableEq

/-- One step of the config `environment_vars` loop (src/app.py lines 3580-3597):
skip `None` values and Model-Serving secret references, extend `orig_env` with
the current value when the key is not already saved, then overwrite. -/
def applyConfigEnvVar (acc : List (String × Option String) × Env)
    (kv : String × Option String) : List (String × Option String) × Env :=
  match kv.2 with
  | none => acc
  | some val =>
    if strContains val "\x7b\x7bsecrets/" then acc
    else
      let orig := if (acc.1.find? (fun p => p.1 = kv.1)).isSome then acc.1
                  else acc.1 ++ [(kv.1, acc.2 kv.1)]
      (orig, envSet acc.2 kv.1 val)

/-- The environment mutations of `run_deployment`'s `try` block together with
the final saved-values dict: save the five managed variables; clear the four
credential variables; set `DATABRICKS_HOST`; set either the PAT (plus
`MLFLOW_TRACKING_TOKEN`) or the service-principal pair; then process the
config-supplied environment variables. -/
def deployEnvMutations (authHost : String) (auth : DeployAuth)
    (cfgVars : List (String × Option String)) (e : Env) :
    List (String × Option String) × Env :=
  let orig := saveEnv e deployManagedVars
  let e := ["DATABRICKS_TOKEN", "DATABRICKS_CLIENT_ID", "DATABRICKS_CLIENT_SECRET",
            "MLFLOW_TRACKING_TOKEN"].foldl envDel e
  let e := envSet e "DATABRICKS_HOST" (normalize_host authHost)
  let e :=
    match auth with
    | .patToken tok => envSet (envSet e "DATABRICKS_TOKEN" tok) "MLFLOW_TRACKING_TOKEN" tok
    | .servicePrincipal cid secret =>
        envSet (envSet e "DATABRICKS_CLIENT_ID" cid) "DATABRICKS_CLIENT_SECRET" secret
    | .neither => e
  cfgVars.foldl applyConfigEnvVar (orig, e)

/-- The whole environment effect of a worker run: mutate, then restore in the
`finally` block. -/
def run_deployment_env (authHost : String) (auth : DeployAuth)
    (cfgVars : List (String × Option String)) (e : Env) : Env :=
  let (orig, mid) := deployEnvMutations authHost auth cfgVars e
  restoreEnv orig mid

/-! # Theorems -/

/-! Helper lemmas about the step-marking record updates. -/

theorem cancelled_setStepFailed (i : Nat) (msg : String) (j : JobRecord) :
    (setStepFailed i msg j).cancelled = j.cancelled := by
  unfold setStepFailed
  cases h : j.steps.get? i <;> simp

theorem status_setStepFailed (i : Nat) (msg : String) (j : JobRecord) :
    (setStepFailed i msg j).status = j.status := by
  unfold setStepFailed
  cases h : j.steps.get? i <;> simp

theorem get?_setStepFailed_self (i : Nat) (msg : String) (j : JobRecord)
    (s : StepRecord) (h : j.steps.get? i = some s) :
    (setStepFailed i msg j).steps.get? i =
      some { s with status := "failed", error := some msg } := by
  unfold setStepFailed
  rw [h]
  obtain ⟨hlt, -⟩ := List.get?_eq_some.mp h
  simp [List.get?_eq_getElem?, List.getElem?_set_self hlt]

/-- C1: for every combination of credential sources present on a request, the
token resolver `get_databricks_token_with_source` returns the token value and
source name of the highest-precedence present source in the fixed order
session > `Authorization: Bearer` header > forwarded header > SDK config >
`DATABRICKS_TOKEN` environment variable, and returns `(None, None)` when no
source is present. -/
theorem C1_token_resolver_precedence (r : HttpRequest) :
    (∀ t, r.sessionAccessToken = some t →
      get_databricks_token_with_source r = (some t, some "oauth")) ∧
    (¬ sessionPresent r → bearerPresent r →
      get_databricks_token_with_source r =
        (some (pyDrop (r.authorizationHeader.getD "") 7), some "manual")) ∧
    (¬ sessionPresent r → ¬ bearerPresent r → forwardedPresent r →
      get_databricks_token_with_source r =
        (some (r.xForwardedAccessToken.getD ""), some "obo")) ∧
    (¬ sessionPresent r → ¬ bearerPresent r → ¬ forwardedPresent r → sdkPresent r →
      get_databricks_token_with_source r = (some (r.sdkToken.getD ""), some "sdk")) ∧
    (¬ sessionPresent r → ¬ bearerPresent r → ¬ forwardedPresent r → ¬ sdkPresent r →
      envPresent r →
      get_databricks_token_with_source r =
        (some (r.envDatabricksToken.getD ""), some "env")) ∧
    (¬ sessionPresent r → ¬ bearerPresent r → ¬ forwardedPresent r → ¬ sdkPresent r →
      ¬ envPresent r →
      get_databricks_token_with_source r = (none, none)) := by
  unfold get_databricks_token_with_source sessionPresent bearerPresent
    forwardedPresent sdkPresent envPresent
  cases h : r.sessionAccessToken with
  | some t => simp [h]
  | none =>
    refine ⟨by simp [h], ?_, ?_, ?_, ?_, ?_⟩ <;> intros <;> simp_all

/-- Witness for C1 at a request with no credential source at all. -/
theorem C1_token_resolver_precedence_witness :
    get_databricks_token_with_source ⟨none, none, none, none, none⟩ = (none, none) :=
  (C1_token_resolver_precedence ⟨none, none, none, none, none⟩).2.2.2.2.2
    (by decide) (by decide) (by decide) (by decide) (by decide)

/-- C2 (amended): the main app's proxy (`proxy_databricks` in src/app.py)
forwards every request carrying an `Authorization: Bearer` header using that
manual token with source `'manual'`, regardless of any forwarded
on-behalf-of header.  (The claim's universal statement over both proxies fails:
see the counterexample for the minimal backend's proxy.) -/
theorem C2_app_proxy_prefers_manual (r : HttpRequest) (h : bearerPresent r) :
    proxy_token_selection r =
      (some (pyDrop (r.authorizationHeader.getD "") 7), some "manual") := by
  unfold bearerPresent at h
  unfold proxy_token_selection
  simp [h]

/-- Witness for C2: a request with both a manual bearer header and a forwarded
token is proxied with the manual token and source `'manual'`. -/
theorem C2_app_proxy_prefers_manual_witness :
    proxy_token_selection ⟨none, some "Bearer tok", some "fwd", none, none⟩ =
      (some "tok", some "manual") :=
  (C2_app_proxy_prefers_manual ⟨none, some "Bearer tok", some "fwd", none, none⟩
    (by decide)).trans (by decide)

/-- C2 counterexample: the proxy of src/backend/main.py never consults the
`Authorization` header; on a request carrying both a manual
`Authorization: Bearer` header and a forwarded token it forwards the forwarded
token, contradicting the claim as stated over both proxy implementations. -/
theorem C2_backend_proxy_counterexample :
    bearerPresent ⟨none, some "Bearer manualtoken", some "forwardedtoken", none, none⟩ ∧
    backend_proxy_token ⟨none, some "Bearer manualtoken", some "forwardedtoken", none, none⟩ =
      some "forwardedtoken" ∧
    backend_proxy_token ⟨none, some "Bearer manualtoken", some "forwardedtoken", none, none⟩ ≠
      some "manualtoken" := by
  refine ⟨by decide, by decide, by decide⟩

/-- C10: for a deployment id absent from the job map, both the status endpoint
and the cancel endpoint return HTTP 404 with error `'Deployment not found'` and
leave the job map unchanged. -/
theorem C10_unknown_deployment (jobs : JobMap) (id now : String)
    (h : jobLookup jobs id = none) :
    get_deployment_status jobs id = (⟨404, some "Deployment not found", none⟩, jobs) ∧
    cancel_deployment now jobs id =
      (⟨404, some "Deployment not found", none, none⟩, jobs) := by
  unfold get_deployment_status cancel_deployment
  simp [h]

/-- Witness for C10 on an empty job map. -/
theorem C10_unknown_deployment_witness :
    get_deployment_status [] "deadbeef" =
      (⟨404, some "Deployment not found", none⟩, []) ∧
    cancel_deployment "t0" [] "deadbeef" =
      (⟨404, some "Deployment not found", none, none⟩, []) :=
  C10_unknown_deployment [] "deadbeef" "t0" (by decide)

/-- C4: a cancel request for a job whose status is terminal returns HTTP 400
and leaves the job record (and map) unchanged; a cancel request for a job in
`starting`/`creating_agent`/`deploying` sets `cancelled = true`, sets
`status = 'cancelled'`, and marks the step at `current_step` `'failed'` with
error `'Cancelled by user'`. -/
theorem C4_cancel_endpoint (now : String) (jobs : JobMap) (id : String)
    (j : JobRecord) (hfind : jobLookup jobs id = some j) :
    (j.status ∈ terminalStatuses →
      cancel_deployment now jobs id =
        (⟨400, some "Deployment cannot be cancelled",
          some ("Deployment is " ++ j.status), none⟩, jobs)) ∧
    (j.status ∈ cancellableStatuses →
      cancel_deployment now jobs id =
        (⟨200, none, some "Deployment cancelled", some (cancelRecord now j)⟩,
          jobUpdate jobs id (cancelRecord now j)) ∧
      (cancelRecord now j).cancelled = true ∧
      (cancelRecord now j).status = "cancelled" ∧
      ∀ s, j.steps.get? j.current_step = some s →
        (cancelRecord now j).steps.get? j.current_step =
          some { s with status := "failed", error := some "Cancelled by user" }) := by
  constructor
  · intro hterm
    have hnc : j.status ∉ cancellableStatuses := by
      simp only [terminalStatuses, List.mem_cons, List.not_mem_nil, or_false] at hterm
      rcases hterm with h | h | h <;> rw [h] <;> decide
    unfold cancel_deployment
    simp [hfind, hnc]
  · intro hcanc
    refine ⟨?_, ?_, ?_, ?_⟩
    · unfold cancel_deployment
      simp [hfind, hcanc]
    · unfold cancelRecord
      rw [cancelled_setStepFailed]
    · unfold cancelRecord
      rw [status_setStepFailed]
    · intro s hs
      have hs' :
          ({ j with cancelled := true, status := "cancelled", completed_at := some now } :
            JobRecord).steps.get? j.current_step = some s := hs
      unfold cancelRecord
      rw [get?_setStepFailed_self _ _ _ _ hs']

/-- Witness for C4: a terminal (`completed`) job is rejected with 400 and a
`starting` job is cancelled with the step marked failed. -/
theorem C4_cancel_endpoint_witness :
    (cancel_deployment "t1" [("d1", { initialJob "d1" "t0" with status := "completed" })] "d1" =
      (⟨400, some "Deployment cannot be cancelled", some "Deployment is completed", none⟩,
        [("d1", { initialJob "d1" "t0" with status := "completed" })])) ∧
    (cancel_deployment "t1" [("d2", initialJob "d2" "t0")] "d2").1.code = 200 := by
  constructor
  · exact (C4_cancel_endpoint "t1" [("d1", { initialJob "d1" "t0" with status := "completed" })]
      "d1" { initialJob "d1" "t0" with status := "completed" } (by decide)).1
      (by decide) |>.trans (by decide)
  · have h := (C4_cancel_endpoint "t1" [("d2", initialJob "d2" "t0")] "d2"
      (initialJob "d2" "t0") (by decide)).2 (by decide)
    rw [h.1]

/-! Helper lemmas for `normalize_host`. -/

theorem dropWhile_eq_self_of_all {α} {p : α → Bool} {l : List α}
    (h : ∀ a ∈ l, p a = false) : l.dropWhile p = l := by
  cases l with
  | nil => rfl
  | cons a l =>
    rw [List.dropWhile_cons_of_neg]
    simp [h a (List.mem_cons_self a l)]

theorem pyStrip_eq_self_of_no_ws {l : List Char}
    (h : ∀ c ∈ l, c.isWhitespace = false) : pyStrip l = l := by
  unfold pyStrip
  rw [dropWhile_eq_self_of_all h, dropWhile_eq_self_of_all, List.reverse_reverse]
  intro c hc
  exact h c (List.mem_reverse.mp hc)

theorem dropWhile_ne_nil_of_exists {α} {p : α → Bool} {l : List α}
    (h : ∃ a ∈ l, p a = false) : l.dropWhile p ≠ [] := by
  induction l with
  | nil => simp at h
  | cons a l ih =>
    by_cases hpa : p a = true
    · rw [List.dropWhile_cons_of_pos hpa]
      apply ih
      obtain ⟨b, hb, hpb⟩ := h
      rcases List.mem_cons.mp hb with hba | hbl
      · rw [hba, hpa] at hpb; cases hpb
      · exact ⟨b, hbl, hpb⟩
    · rw [List.dropWhile_cons_of_neg hpa]
      simp

theorem pyRstripSlashes_ne_nil {l : List Char}
    (h : ∃ c ∈ l, (c == '/') = false) : pyRstripSlashes l ≠ [] := by
  unfold pyRstripSlashes
  intro heq
  apply dropWhile_ne_nil_of_exists (p := fun c => c == '/') (l := l.reverse)
  · obtain ⟨a, ha, hpa⟩ := h
    exact ⟨a, List.mem_reverse.mpr ha, hpa⟩
  · exact List.reverse_eq_nil_iff.mp heq

theorem mem_pyRstripSlashes {l : List Char} {c : Char}
    (h : c ∈ pyRstripSlashes l) : c ∈ l := by
  unfold pyRstripSlashes at h
  have := (List.dropWhile_sublist (l := l.reverse) (fun c => c == '/')).subset
    (List.mem_reverse.mp h)
  exact List.mem_reverse.mp this

theorem pyRstripSlashes_eq_self {l : List Char}
    (h : ∀ a, l.reverse.head? = some a → (a == '/') = false) :
    pyRstripSlashes l = l := by
  unfold pyRstripSlashes
  cases hr : l.reverse with
  | nil =>
    rw [List.reverse_eq_nil_iff.mp hr]
    rfl
  | cons a t =>
    rw [List.dropWhile_cons_of_neg, ← hr, List.reverse_reverse]
    simp [h a (by rw [hr]; rfl)]

theorem pyRstripSlashes_reverse_head {l : List Char} {a : Char}
    (h : (pyRstripSlashes l).reverse.head? = some a) : (a == '/') = false := by
  unfold pyRstripSlashes at h
  rw [List.reverse_reverse] at h
  have hd := List.head?_dropWhile_not (fun c => c == '/') l.reverse
  rw [h] at hd
  exact hd

theorem isPrefixOf_append_self {α} [BEq α] [LawfulBEq α] (p l : List α) :
    p.isPrefixOf (p ++ l) = true := by
  induction p with
  | nil => simp [List.isPrefixOf]
  | cons a p ih => simp [List.isPrefixOf, ih]

/-- Any character list that is nonempty, whitespace-free at both ends (here:
everywhere), does not end in `'/'`, and already carries an http(s) scheme is a
fixed point of `normalize_host`. -/
theorem normalize_host_fixed {y : List Char} (h0 : y ≠ [])
    (hws : ∀ a ∈ y, a.isWhitespace = false)
    (hh : ∀ a, y.reverse.head? = some a → (a == '/') = false)
    (hsch : startsWithScheme y = true) :
    normalize_host y.asString = y.asString := by
  have hne : ¬ (y.asString = "") := fun he => h0 (congrArg String.data he)
  unfold normalize_host
  rw [if_neg hne]
  have ht : (y.asString).toList = y := rfl
  rw [ht]
  rw [pyStrip_eq_self_of_no_ws hws, pyRstripSlashes_eq_self hh]
  rw [if_pos hsch]

/-- C8 (amended): `normalize_host` prefixes a bare hostname with `https://`,
strips trailing slashes, and is idempotent on every input that contains no
whitespace and has some character other than `'/'`.  (Unrestricted idempotence
fails: see the counterexample at input `"/"`.) -/
theorem C8_normalize_host (s : String)
    (hws : ∀ c ∈ s.toList, c.isWhitespace = false)
    (hslash : ∃ c ∈ s.toList, c ≠ '/') :
    normalize_host "foo.cloud.databricks.com" = "https://foo.cloud.databricks.com" ∧
    normalize_host "https://foo/" = "https://foo" ∧
    normalize_host (normalize_host s) = normalize_host s := by
  refine ⟨by decide, by decide, ?_⟩
  by_cases hs0 : s = ""
  · rw [hs0]; decide
  have hstrip : pyStrip s.toList = s.toList := pyStrip_eq_self_of_no_ws hws
  have hcne : pyRstripSlashes s.toList ≠ [] := by
    apply pyRstripSlashes_ne_nil
    obtain ⟨a, ha, hne⟩ := hslash
    exact ⟨a, ha, by simpa using hne⟩
  have hcws : ∀ a ∈ pyRstripSlashes s.toList, a.isWhitespace = false :=
    fun a ha => hws a (mem_pyRstripSlashes ha)
  have hchead : ∀ a, (pyRstripSlashes s.toList).reverse.head? = some a →
      (a == '/') = false :=
    fun a ha => pyRstripSlashes_reverse_head ha
  have hdef : normalize_host s =
      (if startsWithScheme (pyRstripSlashes s.toList)
        then (pyRstripSlashes s.toList).asString
        else ("https://".toList ++ pyRstripSlashes s.toList).asString) := by
    unfold normalize_host
    rw [if_neg hs0, hstrip]
  by_cases hsch : startsWithScheme (pyRstripSlashes s.toList) = true
  · rw [hdef, if_pos hsch]
    exact normalize_host_fixed hcne hcws hchead hsch
  · rw [hdef, if_neg hsch]
    apply normalize_host_fixed
    · simp
    · intro a ha
      rcases List.mem_append.mp ha with hsc | hc
      · have hall : ∀ b ∈ "https://".toList, b.isWhitespace = false := by decide
        exact hall a hsc
      · exact hcws a hc
    · intro a ha
      rw [List.reverse_append] at ha
      cases hcr : (pyRstripSlashes s.toList).reverse with
      | nil => exact absurd (List.reverse_eq_nil_iff.mp hcr) hcne
      | cons b t =>
        rw [hcr] at ha
        simp only [List.cons_append, List.head?_cons, Option.some.injEq] at ha
        apply hchead
        rw [hcr, ha]
        rfl
    · unfold startsWithScheme
      rw [Bool.or_eq_true]
      right
      exact isPrefixOf_append_self _ _

/-- Witness for C8 at a bare hostname. -/
theorem C8_normalize_host_witness :
    normalize_host (normalize_host "foo.cloud.databricks.com") =
      normalize_host "foo.cloud.databricks.com" :=
  (C8_normalize_host "foo.cloud.databricks.com" (by decide) (by decide)).2.2

/-- C8 counterexample: `normalize_host` is not idempotent in general —
`normalize_host "/"` is `"https://"`, and normalizing again right-strips the
scheme's slashes and prefixes once more, yielding `"https://https:"`. -/
theorem C8_counterexample :
    normalize_host "/" = "https://" ∧
    normalize_host (normalize_host "/") = "https://https:" ∧
    normalize_host (normalize_host "/") ≠ normalize_host "/" := by
  refine ⟨by decide, by decide, by decide⟩

/-- C3 (amended): once a job record's status is terminal, the cancel endpoint
performs no mutation, and the worker's lock-guarded transitions (begin-create,
begin-deploy, commit) perform no mutation on a record whose `cancelled` flag is
set.  (The claim's blanket statement fails: the worker's unguarded
validate-completion write and its exception handler can still mutate a record
that is already terminal — see the counterexample.) -/
theorem C3_terminal_guards (now : String) (res : DeployResult) (jobs : JobMap)
    (id : String) (j : JobRecord) :
    (jobLookup jobs id = some j → j.status ∈ terminalStatuses →
      (cancel_deployment now jobs id).2 = jobs) ∧
    (j.cancelled = true →
      workerBeginCreate j = j ∧ workerBeginDeploy j = j ∧ workerCommit now res j = j) := by
  constructor
  · intro hfind hterm
    have hnc : j.status ∉ cancellableStatuses := by
      simp only [terminalStatuses, List.mem_cons, List.not_mem_nil, or_false] at hterm
      rcases hterm with h | h | h <;> rw [h] <;> decide
    unfold cancel_deployment
    simp [hfind, hnc]
  · intro hc
    unfold workerBeginCreate workerBeginDeploy workerCommit
    simp [hc]

/-- Witness for C3: a completed job survives a cancel request unchanged, and a
cancelled-flagged record passes the worker's commit block untouched. -/
theorem C3_terminal_guards_witness :
    (cancel_deployment "t1" [("d1", { initialJob "d1" "t0" with status := "completed" })] "d1").2 =
      [("d1", { initialJob "d1" "t0" with status := "completed" })] ∧
    workerCommit "t2" ⟨"ep", "m", "ok"⟩ { initialJob "d1" "t0" with cancelled := true } =
      { initialJob "d1" "t0" with cancelled := true } := by
  constructor
  · exact (C3_terminal_guards "t1" ⟨"ep", "m", "ok"⟩
      [("d1", { initialJob "d1" "t0" with status := "completed" })] "d1"
      { initialJob "d1" "t0" with status := "completed" }).1 (by decide) (by decide)
  · exact ((C3_terminal_guards "t2" ⟨"ep", "m", "ok"⟩ [] "d1"
      { initialJob "d1" "t0" with cancelled := true }).2 (by decide)).2.2

/-- C3 counterexample: take a fresh job whose worker has marked the validate
step running, cancel it through the cancel endpoint (status becomes the
terminal `'cancelled'`), and let the worker proceed: its unguarded
validate-completion write and its exception handler both mutate the terminal
record, so the claimed invariant is false. -/
theorem C3_counterexample :
    jobLookup
        (cancel_deployment "t1" [("d1", workerBeginValidate (initialJob "d1" "t0"))] "d1").2
        "d1" =
      some (cancelRecord "t1" (workerBeginValidate (initialJob "d1" "t0"))) ∧
    (cancelRecord "t1" (workerBeginValidate (initialJob "d1" "t0"))).status ∈ terminalStatuses ∧
    workerValidateDone (cancelRecord "t1" (workerBeginValidate (initialJob "d1" "t0"))) ≠
      cancelRecord "t1" (workerBeginValidate (initialJob "d1" "t0")) ∧
    workerFail "t2" "boom" "trace" (cancelRecord "t1" (workerBeginValidate (initialJob "d1" "t0"))) ≠
      cancelRecord "t1" (workerBeginValidate (initialJob "d1" "t0")) := by
  refine ⟨by decide, by decide, by decide, by decide⟩

/-- C6 (amended): for a 403 upstream response whose (message-or-error) body
field contains `'scope'` case-insensitively, and a request path containing
`/vector-search` that matches no earlier entry of the static scope table
(no `/sql/`, `/warehouses`, `/serving-endpoints` or `/endpoints` occurrence),
the enriched response's `required_scopes` includes
`vectorsearch.vector-search-indexes` and carries the configured
`OAUTH_SCOPES`.  (Without the extra no-earlier-match condition the claim fails:
see the counterexample at path `api/2.0/vector-search/endpoints`.) -/
theorem C6_vector_search_scopes (path : String) (resp : UpstreamResponse)
    (hstatus : resp.status = 403)
    (hscope : strContains (pyLower (effectiveErrorMessage resp)) "scope" = true)
    (hvs : strContains (pyLower path) "/vector-search" = true)
    (h1 : strContains (pyLower path) "/sql/" = false)
    (h2 : strContains (pyLower path) "/warehouses" = false)
    (h3 : strContains (pyLower path) "/serving-endpoints" = false)
    (h4 : strContains (pyLower path) "/endpoints" = false) :
    scope_error_enrichment path resp =
      some ⟨effectiveErrorMessage resp, resp.error_code,
            ["vectorsearch.vector-search-indexes", "vectorsearch.vector-search-endpoints"],
            OAUTH_SCOPES⟩ ∧
    "vectorsearch.vector-search-indexes" ∈ get_required_scopes_for_path path := by
  have hreq : get_required_scopes_for_path path =
      ["vectorsearch.vector-search-indexes", "vectorsearch.vector-search-endpoints"] := by
    unfold get_required_scopes_for_path scope_mappings
    simp [List.find?, List.any, h1, h2, h3, h4, hvs]
  constructor
  · unfold scope_error_enrichment
    rw [hstatus]
    simp [hscope, hreq]
  · rw [hreq]
    simp

/-- Witness for C6 at a genuine vector-search index path. -/
theorem C6_vector_search_scopes_witness :
    scope_error_enrichment "api/2.0/vector-search/indexes"
        ⟨403, some "Invalid scope", none, none⟩ =
      some ⟨"Invalid scope", none,
            ["vectorsearch.vector-search-indexes", "vectorsearch.vector-search-endpoints"],
            OAUTH_SCOPES⟩ :=
  ((C6_vector_search_scopes "api/2.0/vector-search/indexes"
      ⟨403, some "Invalid scope", none, none⟩ (by decide) (by decide) (by decide)
      (by decide) (by decide) (by decide) (by decide)).1).trans (by decide)

/-- C6 counterexample: the scope table is first-match, and the
`/serving-endpoints`/`/endpoints` entry precedes the vector-search entry, so
the real vector-search endpoint path `api/2.0/vector-search/endpoints` (a 403,
scope-mentioning response) is enriched with `['serving.serving-endpoints']`,
which does not include `vectorsearch.vector-search-indexes` — the claim as
stated is false. -/
theorem C6_counterexample :
    scope_error_enrichment "api/2.0/vector-search/endpoints"
        ⟨403, some "Invalid scope", none, none⟩ =
      some ⟨"Invalid scope", none, ["serving.serving-endpoints"], OAUTH_SCOPES⟩ ∧
    strContains (pyLower "api/2.0/vector-search/endpoints") "/vector-search" = true ∧
    "vectorsearch.vector-search-indexes" ∉ (["serving.serving-endpoints"] : List String) := by
  refine ⟨by decide, by decide, by decide⟩

/-! Helper lemmas for `sort_by_owner`: the lexicographic key comparison is a
total preorder, so Mathlib's stable `insertionSort` behaves like Python's
stable `sorted`. -/

theorem charListLe_cons (a b : Char) (as bs : List Char) :
    charListLe (a :: as) (b :: bs) =
      (if a < b then true else if b < a then false else charListLe as bs) := rfl

theorem charListLe_total : ∀ l m : List Char,
    charListLe l m = true ∨ charListLe m l = true
  | [], _ => Or.inl rfl
  | _ :: _, [] => Or.inr rfl
  | a :: as, b :: bs => by
    rcases lt_trichotomy a b with h | h | h
    · left; simp [charListLe_cons, h]
    · subst h
      rcases charListLe_total as bs with hc | hc
      · left; simp [charListLe_cons, lt_irrefl, hc]
      · right; simp [charListLe_cons, lt_irrefl, hc]
    · right; simp [charListLe_cons, h]

theorem charListLe_trans : ∀ l m n : List Char,
    charListLe l m = true → charListLe m n = true → charListLe l n = true
  | [], _, _, _, _ => rfl
  | _ :: _, [], _, h1, _ => by cases h1
  | _ :: _, _ :: _, [], _, h2 => by cases h2
  | a :: as, b :: bs, c :: cs, h1, h2 => by
    rcases lt_trichotomy a b with hab | hab | hab
    · rcases lt_trichotomy b c with hbc | hbc | hbc
      · simp [charListLe_cons, lt_trans hab hbc]
      · subst hbc; simp [charListLe_cons, hab]
      · rw [charListLe_cons, if_neg (asymm hbc), if_pos hbc] at h2; cases h2
    · subst hab
      rw [charListLe_cons, if_neg (lt_irrefl a), if_neg (lt_irrefl a)] at h1
      rcases lt_trichotomy a c with hac | hac | hac
      · simp [charListLe_cons, hac]
      · subst hac
        rw [charListLe_cons, if_neg (lt_irrefl a), if_neg (lt_irrefl a)] at h2 ⊢
        exact charListLe_trans as bs cs h1 h2
      · rw [charListLe_cons, if_neg (asymm hac), if_pos hac] at h2; cases h2
    · rw [charListLe_cons, if_neg (asymm hab), if_pos hab] at h1; cases h1

instance (u : String) : IsTotal OwnedItem (itemLe u) := by
  refine ⟨fun x y => ?_⟩
  unfold itemLe
  rcases Nat.lt_trichotomy (ownedRank u x) (ownedRank u y) with h | h | h
  · exact Or.inl (Or.inl h)
  · rcases charListLe_total (nameKey x) (nameKey y) with hc | hc
    · exact Or.inl (Or.inr ⟨h, hc⟩)
    · exact Or.inr (Or.inr ⟨h.symm, hc⟩)
  · exact Or.inr (Or.inl h)

instance (u : String) : IsTrans OwnedItem (itemLe u) := by
  refine ⟨fun x y z hxy hyz => ?_⟩
  unfold itemLe at *
  rcases hxy with h1 | ⟨e1, c1⟩ <;> rcases hyz with h2 | ⟨e2, c2⟩
  · exact Or.inl (lt_trans h1 h2)
  · exact Or.inl (e2 ▸ h1)
  · exact Or.inl (e1 ▸ h2)
  · exact Or.inr ⟨e1.trans e2, charListLe_trans _ _ _ c1 c2⟩

instance : IsTotal OwnedItem nameLe := by
  refine ⟨fun x y => ?_⟩
  unfold nameLe
  exact charListLe_total _ _

instance : IsTrans OwnedItem nameLe := by
  refine ⟨fun x y z => ?_⟩
  unfold nameLe
  exact charListLe_trans _ _ _

/-- C9: `sort_by_owner` sorts the spec's example `[b/me, a/me, z/other]` with
current user `me` to `[a, b, z]`; it is idempotent; it is stable (any pair
already in key order keeps its relative order); and its output is sorted by
the key order (owner-match rank first, then lower-cased name), i.e. items
owned by the current user come first and each group is alphabetical by name. -/
theorem C9_sort_by_owner :
    sort_by_owner [⟨some "b", some "me"⟩, ⟨some "a", some "me"⟩, ⟨some "z", some "other"⟩]
        (some "me") =
      [⟨some "a", some "me"⟩, ⟨some "b", some "me"⟩, ⟨some "z", some "other"⟩] ∧
    (∀ l u, sort_by_owner (sort_by_owner l u) u = sort_by_owner l u) ∧
    (∀ u l a b, sortRel u a b → List.Sublist [a, b] l → List.Sublist [a, b] (sort_by_owner l u)) ∧
    (∀ u l, List.Sorted (sortRel u) (sort_by_owner l u)) := by
  refine ⟨by decide, ?_, ?_, ?_⟩
  · intro l u
    unfold sort_by_owner
    by_cases hu : u.getD "" = ""
    · rw [if_pos hu, if_pos hu]
      exact (List.sorted_insertionSort nameLe l).insertionSort_eq
    · rw [if_neg hu, if_neg hu]
      exact (List.sorted_insertionSort (itemLe (u.getD "")) l).insertionSort_eq
  · intro u l a b hab hsub
    unfold sort_by_owner
    unfold sortRel at hab
    by_cases hu : u.getD "" = ""
    · rw [if_pos hu]
      rw [if_pos hu] at hab
      exact List.pair_sublist_insertionSort hab hsub
    · rw [if_neg hu]
      rw [if_neg hu] at hab
      exact List.pair_sublist_insertionSort hab hsub
  · intro u l
    unfold sort_by_owner sortRel
    by_cases hu : u.getD "" = ""
    · rw [if_pos hu, if_pos hu]
      exact List.sorted_insertionSort nameLe l
    · rw [if_neg hu, if_neg hu]
      exact List.sorted_insertionSort (itemLe (u.getD "")) l

/-- Witness for C9: stability applied to two equal-key items (same owner, same
lower-cased name) that appear adjacently in a concrete list. -/
theorem C9_sort_by_owner_witness :
    List.Sublist [(⟨some "A", some "me"⟩ : OwnedItem), ⟨some "a", some "me"⟩]
      (sort_by_owner [⟨some "A", some "me"⟩, ⟨some "a", some "me"⟩, ⟨some "z", none⟩]
        (some "me")) :=
  (C9_sort_by_owner).2.2.1 (some "me")
    [⟨some "A", some "me"⟩, ⟨some "a", some "me"⟩, ⟨some "z", none⟩]
    ⟨some "A", some "me"⟩ ⟨some "a", some "me"⟩ (by decide) (by decide)

/-- C7 (amended): every quick-deployment request that carries a config and
whose `credentials.type` is `'manual_pat'` with no `pat` field gets HTTP 400
with an error naming the missing PAT, no new job-map entry, and no worker
thread.  (The claim as stated also covers config-less requests, where the 400
error names the missing config instead — see the counterexample.) -/
theorem C7_manual_pat_missing (newId now : String) (amb : DeployAmbient)
    (r : DeployQuickRequest) (jobs : JobMap)
    (hc : r.config.isSome) (ht : r.credType = some "manual_pat")
    (hp : r.credPat = none) :
    deploy_quick newId now amb r jobs =
      ⟨400, some "PAT is required for manual_pat credential type", none, jobs, false⟩ ∧
    strContains "PAT is required for manual_pat credential type" "PAT" = true := by
  obtain ⟨c, hcfg⟩ := Option.isSome_iff_exists.mp hc
  refine ⟨?_, by decide⟩
  unfold deploy_quick
  simp [hcfg, ht, hp]

/-- Witness for C7 at a concrete config-carrying request lacking the PAT. -/
theorem C7_manual_pat_missing_witness :
    deploy_quick "abc12345" "t0"
        ⟨some "https://h", none, none, ⟨none, none, none, none, none⟩⟩
        ⟨some "cfg", some "manual_pat", none, none, none⟩ [] =
      ⟨400, some "PAT is required for manual_pat credential type", none, [], false⟩ :=
  (C7_manual_pat_missing "abc12345" "t0"
    ⟨some "https://h", none, none, ⟨none, none, none, none, none⟩⟩
    ⟨some "cfg", some "manual_pat", none, none, none⟩ [] (by decide) (by decide)
    (by decide)).1

/-- C7 counterexample: a quick-deployment request with
`credentials.type = 'manual_pat'`, no `pat` field and no `config` is answered
400 with `'config is required'`, an error that does not name the missing PAT
field, so the claim as stated (quantified over every such request) fails. -/
theorem C7_counterexample :
    deploy_quick "abc12345" "t0"
        ⟨some "https://h", none, none, ⟨none, none, none, none, none⟩⟩
        ⟨none, some "manual_pat", none, none, none⟩ [] =
      ⟨400, some "config is required", none, [], false⟩ ∧
    strContains "config is required" "PAT" = false := by
  refine ⟨by decide, by decide⟩

/-! Helper lemmas for the environment save/restore discipline (C5). -/

theorem restoreEnv_nil (e : Env) : restoreEnv [] e = e := rfl

theorem restoreEnv_cons (p : String × Option String)
    (orig : List (String × Option String)) (e : Env) :
    restoreEnv (p :: orig) e =
      restoreEnv orig
        (match p.2 with | some v => envSet e p.1 v | none => envDel e p.1) := rfl

/-- Restoring bindings none of which concern `v` leaves `v` untouched. -/
theorem restoreEnv_not_mem {orig : List (String × Option String)} {v : String}
    (h : ∀ q ∈ orig, q.1 ≠ v) : ∀ e : Env, restoreEnv orig e v = e v := by
  induction orig with
  | nil => intro e; rfl
  | cons p orig ih =>
    intro e
    rw [restoreEnv_cons]
    rw [ih (fun q hq => h q (List.mem_cons_of_mem p hq))]
    have hp : p.1 ≠ v := h p (List.mem_cons_self p orig)
    cases hw : p.2 <;>
      simp only [hw, envSet, envDel] <;>
      rw [if_neg (fun he => hp he.symm)]

/-- If `orig` contains the binding `(v, w)` and every binding of `v` in `orig`
carries the value `w`, restoring ends with `v ↦ w`, whatever the intermediate
environment was. -/
theorem restoreEnv_binding {orig : List (String × Option String)} {v : String}
    {w : Option String} (hmem : (v, w) ∈ orig)
    (hall : ∀ q ∈ orig, q.1 = v → q.2 = w) :
    ∀ e : Env, restoreEnv orig e v = w := by
  induction orig with
  | nil => cases hmem
  | cons p orig ih =>
    intro e
    rw [restoreEnv_cons]
    by_cases hex : ∃ q ∈ orig, q.1 = v
    · obtain ⟨q, hq, hqv⟩ := hex
      have hq2 : q.2 = w := hall q (List.mem_cons_of_mem p hq) hqv
      have hqeq : q = (v, w) := Prod.ext hqv hq2
      exact ih (hqeq ▸ hq) (fun r hr hrv => hall r (List.mem_cons_of_mem p hr) hrv) _
    · push_neg at hex
      have hhead : p = (v, w) := by
        rcases List.mem_cons.mp hmem with h | h
        · exact h.symm
        · exact absurd rfl (hex (v, w) h)
      subst hhead
      rw [restoreEnv_not_mem hex]
      cases w <;> simp [envSet, envDel]

theorem saveEnv_binding (e : Env) (vars : List String) (v : String)
    (hv : v ∈ vars) :
    (v, e v) ∈ saveEnv e vars ∧ ∀ q ∈ saveEnv e vars, q.1 = v → q.2 = e v := by
  constructor
  · exact List.mem_map.mpr ⟨v, hv, rfl⟩
  · intro q hq hqv
    obtain ⟨x, _, rfl⟩ := List.mem_map.mp hq
    simp only at hqv
    rw [hqv]

/-- The config-variable loop of `run_deployment` only appends bindings for
keys that are not yet saved, so an existing unique binding of `v` survives. -/
theorem configFold_preserves (cfg : List (String × Option String)) :
    ∀ (acc : List (String × Option String) × Env) (v : String) (w : Option String),
      (v, w) ∈ acc.1 → (∀ q ∈ acc.1, q.1 = v → q.2 = w) →
      ((v, w) ∈ (cfg.foldl applyConfigEnvVar acc).1 ∧
        ∀ q ∈ (cfg.foldl applyConfigEnvVar acc).1, q.1 = v → q.2 = w) := by
  induction cfg with
  | nil => exact fun acc v w hm ha => ⟨hm, ha⟩
  | cons kv cfg ih =>
    intro acc v w hm ha
    rw [List.foldl_cons]
    have hstep : (v, w) ∈ (applyConfigEnvVar acc kv).1 ∧
        ∀ q ∈ (applyConfigEnvVar acc kv).1, q.1 = v → q.2 = w := by
      unfold applyConfigEnvVar
      cases hv2 : kv.2 with
      | none => exact ⟨hm, ha⟩
      | some val =>
        by_cases hsec : strContains val "\x7b\x7bsecrets/" = true
        · simp only [hsec, if_true]
          exact ⟨hm, ha⟩
        · simp only [eq_false_of_ne_true hsec, if_false]
          by_cases hfound : (acc.1.find? (fun p => p.1 = kv.1)).isSome = true
          · simp only [hfound, if_true]
            exact ⟨hm, ha⟩
          · simp only [eq_false_of_ne_true hfound, if_false]
            have hnone : acc.1.find? (fun p => decide (p.1 = kv.1)) = none :=
              Option.not_isSome_iff_eq_none.mp (fun h => hfound h)
            have hkv : kv.1 ≠ v := by
              intro hkvv
              have := List.find?_eq_none.mp hnone (v, w) hm
              simp [hkvv] at this
            constructor
            · exact List.mem_append_left _ hm
            · intro q hq hqv
              rcases List.mem_append.mp hq with hq1 | hq2
              · exact ha q hq1 hqv
              · rcases List.mem_singleton.mp hq2 with rfl
                exact absurd hqv hkv
    exact ih (applyConfigEnvVar acc kv) v w hstep.1 hstep.2

/-- C5: for every invocation of a prompt-registry handler or of the deployment
worker, whatever the outcome — the intermediate environment `mid` is arbitrary,
covering success, an exception at any point after the save, and cancellation —
the `finally`-style restore loop puts every managed credential variable
(`DATABRICKS_HOST`, `DATABRICKS_TOKEN`, `DATABRICKS_CLIENT_ID`,
`DATABRICKS_CLIENT_SECRET`, and for deployment also `MLFLOW_TRACKING_TOKEN`)
back to its pre-call value: a variable previously set is set back, a variable
previously absent is absent again.  The last two conjuncts instantiate this for
the full modelled mutation paths of `list_prompts` and `run_deployment`. -/
theorem C5_env_restoration :
    (∀ (e mid : Env) (v : String), v ∈ promptManagedVars →
      restoreEnv (saveEnv e promptManagedVars) mid v = e v) ∧
    (∀ (e mid : Env) (authHost : String) (auth : DeployAuth)
        (cfgVars : List (String × Option String)) (v : String),
      v ∈ deployManagedVars →
      restoreEnv (deployEnvMutations authHost auth cfgVars e).1 mid v = e v) ∧
    (∀ (e : Env) (host : String) (auth : PromptAuth) (v : String),
      v ∈ promptManagedVars → list_prompts_env host auth e v = e v) ∧
    (∀ (e : Env) (authHost : String) (auth : DeployAuth)
        (cfgVars : List (String × Option String)) (v : String),
      v ∈ deployManagedVars → run_deployment_env authHost auth cfgVars e v = e v) := by
  have hprompt : ∀ (e mid : Env) (v : String), v ∈ promptManagedVars →
      restoreEnv (saveEnv e promptManagedVars) mid v = e v := by
    intro e mid v hv
    obtain ⟨hm, ha⟩ := saveEnv_binding e promptManagedVars v hv
    exact restoreEnv_binding hm ha mid
  have hdeploy : ∀ (e mid : Env) (authHost : String) (auth : DeployAuth)
      (cfgVars : List (String × Option String)) (v : String),
      v ∈ deployManagedVars →
      restoreEnv (deployEnvMutations authHost auth cfgVars e).1 mid v = e v := by
    intro e mid authHost auth cfgVars v hv
    obtain ⟨hm, ha⟩ := saveEnv_binding e deployManagedVars v hv
    have hfold := configFold_preserves cfgVars
      (saveEnv e deployManagedVars,
        match auth with
        | .patToken tok =>
            envSet (envSet (envSet (["DATABRICKS_TOKEN", "DATABRICKS_CLIENT_ID",
              "DATABRICKS_CLIENT_SECRET", "MLFLOW_TRACKING_TOKEN"].foldl envDel e)
              "DATABRICKS_HOST" (normalize_host authHost)) "DATABRICKS_TOKEN" tok)
              "MLFLOW_TRACKING_TOKEN" tok
        | .servicePrincipal cid secret =>
            envSet (envSet (envSet (["DATABRICKS_TOKEN", "DATABRICKS_CLIENT_ID",
              "DATABRICKS_CLIENT_SECRET", "MLFLOW_TRACKING_TOKEN"].foldl envDel e)
              "DATABRICKS_HOST" (normalize_host authHost)) "DATABRICKS_CLIENT_ID" cid)
              "DATABRICKS_CLIENT_SECRET" secret
        | .neither =>
            envSet (["DATABRICKS_TOKEN", "DATABRICKS_CLIENT_ID",
              "DATABRICKS_CLIENT_SECRET", "MLFLOW_TRACKING_TOKEN"].foldl envDel e)
              "DATABRICKS_HOST" (normalize_host authHost))
      v (e v) hm ha
    exact restoreEnv_binding hfold.1 hfold.2 mid
  refine ⟨hprompt, hdeploy, ?_, ?_⟩
  · intro e host auth v hv
    exact hprompt e (promptsEnvMutations host auth e) v hv
  · intro e authHost auth cfgVars v hv
    exact hdeploy e (deployEnvMutations authHost auth cfgVars e).2 authHost auth cfgVars v hv

/-- Witness for C5: a pre-call environment holding `DATABRICKS_TOKEN =
orig-token` gets that exact value back after a prompt-registry call that
overwrote it, and after a deployment run that cleared it and set a PAT. -/
theorem C5_env_restoration_witness :
    list_prompts_env "myhost" (.userToken "tmp-token")
        (fun k => if k = "DATABRICKS_TOKEN" then some "orig-token" else none)
        "DATABRICKS_TOKEN" = some "orig-token" ∧
    run_deployment_env "myhost" (.patToken "pat-token") [("EXTRA", some "1")]
        (fun k => if k = "DATABRICKS_TOKEN" then some "orig-token" else none)
        "DATABRICKS_TOKEN" = some "orig-token" := by
  constructor
  · exact (C5_env_restoration.2.2.1
      (fun k => if k = "DATABRICKS_TOKEN" then some "orig-token" else none)
      "myhost" (.userToken "tmp-token") "DATABRICKS_TOKEN" (by decide)).trans (by decide)
  · exact (C5_env_restoration.2.2.2
      (fun k => if k = "DATABRICKS_TOKEN" then some "orig-token" else none)
      "myhost" (.patToken "pat-token") [("EXTRA", some "1")] "DATABRICKS_TOKEN"
      (by decide)).trans (by decide)

end DaoAi
